import Mathlib

/-!
Verification of the electric-data hotel consumption application.

The numeric model uses exact rationals (ℚ) for the JavaScript numbers; the
rounding helper `round2` models `Math.round(x * 100) / 100` (JavaScript
`Math.round` is `⌊x + 1/2⌋`).

Definitions are shallow embeddings of the TypeScript source:
  * `calculateRoomConsumption`   — src/components/power-consumption-report.tsx
  * `healthStatus`, `roomMetrics`, `tenantDashboardStats`
                                 — src/actions/room-actions.ts (getTenantDashboard)
  * `percentageOfTotal`, `sortedReport`
                                 — src/components/power-consumption-report.tsx
  * `deviceSchemaValid`, `crudDeviceSchemaValid`
                                 — src/actions/device-actions.ts, src/actions/devices.ts
  * `copyRoomDevices`, `getNextRoom`, `nextDisplayOrder`
                                 — src/actions/room-actions.ts
-/

/-- A device row as consumed by the aggregation code
(`electrical_devices` columns used by the calculators). -/
structure ElectricalDevice where
  device_name : String
  power_watts : ℚ
  usage_hours_per_day : ℚ
deriving DecidableEq, Repr

/-- `Math.round (q * 100) / 100`: round to 2 decimal places, halves up. -/
def round2 (q : ℚ) : ℚ := (⌊q * 100 + 1/2⌋ : ℤ) / 100

/-- `devices.reduce((total, d) => total + d.power_watts * d.usage_hours_per_day, 0)`. -/
def dailyWattHours (devices : List ElectricalDevice) : ℚ :=
  devices.foldl (fun total d => total + d.power_watts * d.usage_hours_per_day) 0

/-- Result record of `calculateRoomConsumption` in power-consumption-report.tsx. -/
structure RoomConsumption where
  deviceCount : ℕ
  dailyKwh : ℚ
  monthlyKwh : ℚ
  yearlyKwh : ℚ
  yearlyCost : ℚ
deriving DecidableEq, Repr

/-- `calculateRoomConsumption` from src/components/power-consumption-report.tsx:
daily watt-hours over the room's devices, converted to kWh, scaled to
month/year, costed at the user-supplied price. -/
def calculateRoomConsumption (devices : List ElectricalDevice) (price : ℚ) :
    RoomConsumption :=
  let dailyKwh := dailyWattHours devices / 1000
  let monthlyKwh := dailyKwh * 30
  let yearlyKwh := dailyKwh * 365
  let yearlyCost := yearlyKwh * price
  { deviceCount := devices.length
    dailyKwh := dailyKwh
    monthlyKwh := monthlyKwh
    yearlyKwh := yearlyKwh
    yearlyCost := yearlyCost }

/-- The three-level room health classification. -/
inductive HealthStatus where
  | good
  | moderate
  | high
deriving DecidableEq, Repr

/-- Health classifier from `getTenantDashboard` (src/actions/room-actions.ts,
lines 313–316) and `RoomDetailContent`: start at `good`, overwrite with `high`
when `dailyKwh > 20`, else with `moderate` when `dailyKwh > 10`. -/
def healthStatus (dailyKwh : ℚ) : HealthStatus :=
  if dailyKwh > 20 then .high
  else if dailyKwh > 10 then .moderate
  else .good

/-- Per-room record produced by `getTenantDashboard` (the fields the rollup
reads): per-room kWh figures are rounded to 2 decimals when stored, the
health status is computed from the unrounded daily kWh. -/
structure RoomMetrics where
  deviceCount : ℕ
  dailyKwh : ℚ
  monthlyKwh : ℚ
  yearlyKwh : ℚ
  health : HealthStatus
deriving DecidableEq, Repr

/-- The `roomsWithMetrics` map body of `getTenantDashboard`
(src/actions/room-actions.ts, lines 303–327). -/
def roomMetrics (devices : List ElectricalDevice) : RoomMetrics :=
  let dailyKwh := dailyWattHours devices / 1000
  let monthlyKwh := dailyKwh * 30
  let yearlyKwh := dailyKwh * 365
  { deviceCount := devices.length
    dailyKwh := round2 dailyKwh
    monthlyKwh := round2 monthlyKwh
    yearlyKwh := round2 yearlyKwh
    health := healthStatus dailyKwh }

/-- The `stats` record of `getTenantDashboard`. -/
structure DashboardStats where
  totalRooms : ℕ
  totalDevices : ℕ
  totalDailyKwh : ℚ
  totalMonthlyKwh : ℚ
  estimatedMonthlyCost : ℚ
deriving DecidableEq, Repr

/-- Overall stats of `getTenantDashboard` (src/actions/room-actions.ts,
lines 329–347): sums taken over the already-rounded per-room metrics, the
totals rounded again; monthly cost at the fixed 0.15 rate computed from the
unrounded sum and then rounded. -/
def tenantDashboardStats (rooms : List (List ElectricalDevice)) : DashboardStats :=
  let ms := rooms.map roomMetrics
  let totalDailyKwh := ms.foldl (fun s r => s + r.dailyKwh) 0
  let totalMonthlyKwh := ms.foldl (fun s r => s + r.monthlyKwh) 0
  { totalRooms := ms.length
    totalDevices := ms.foldl (fun s r => s + r.deviceCount) 0
    totalDailyKwh := round2 totalDailyKwh
    totalMonthlyKwh := round2 totalMonthlyKwh
    estimatedMonthlyCost := round2 (totalMonthlyKwh * (15/100)) }

/-- Per-room share of the yearly total in the report
(src/components/power-consumption-report.tsx, line 171):
`totals.yearlyKwh > 0 ? (yearlyKwh / totals.yearlyKwh) * 100 : 0`. -/
def percentageOfTotal (yearlyKwh totalYearly : ℚ) : ℚ :=
  if totalYearly > 0 then yearlyKwh / totalYearly * 100 else 0

/-- The report's room consumptions for a given price
(`roomsWithDevices.map(room => calculateRoomConsumption(room, price))`). -/
def roomConsumptions (rooms : List (List ElectricalDevice)) (price : ℚ) :
    List RoomConsumption :=
  rooms.map (fun r => calculateRoomConsumption r price)

/-- `totals.yearlyKwh` of the report: the fold accumulating every room's
yearly kWh. -/
def totalsYearlyKwh (rooms : List (List ElectricalDevice)) (price : ℚ) : ℚ :=
  (roomConsumptions rooms price).foldl (fun acc r => acc + r.yearlyKwh) 0

/-- Device-form input as passed to `saveDevices` / `updateDevice`. -/
structure DeviceInput where
  name : String
  powerWatts : ℚ
  usageHoursPerDay : ℚ
deriving DecidableEq, Repr

/-- `DeviceSchema` of src/actions/device-actions.ts: `z.object` with
`name: z.string().min(1)`, `powerWatts: z.number().positive()`,
`usageHoursPerDay: z.number().min(0).max(24)`. -/
def deviceSchemaValid (d : DeviceInput) : Bool :=
  decide (1 ≤ d.name.length) && decide (0 < d.powerWatts)
    && decide (0 ≤ d.usageHoursPerDay) && decide (d.usageHoursPerDay ≤ 24)

/-- Input of the drizzle CRUD `DeviceSchema` in src/actions/devices.ts; the
`z.string().uuid()` check on the tenant id is abstracted as a boolean. -/
structure CrudDeviceInput where
  tenantIdIsUuid : Bool
  deviceName : String
  powerWatts : ℚ
  usageHoursPerDay : ℚ
deriving DecidableEq, Repr

/-- `DeviceSchema` of src/actions/devices.ts: tenant id a uuid, device name
length in [1, 255], `powerWatts: z.coerce.number().min(0)`,
`usageHoursPerDay: z.coerce.number().min(0).max(24)`. -/
def crudDeviceSchemaValid (d : CrudDeviceInput) : Bool :=
  d.tenantIdIsUuid && decide (1 ≤ d.deviceName.length)
    && decide (d.deviceName.length ≤ 255) && decide (0 ≤ d.powerWatts)
    && decide (0 ≤ d.usageHoursPerDay) && decide (d.usageHoursPerDay ≤ 24)

/-- A persisted `electrical_devices` row (the columns `copyRoomDevices`
selects and inserts, plus the store-assigned identity). -/
structure DeviceRow where
  id : ℕ
  tenant_id : String
  room_id : Option String
  device_name : String
  power_watts : ℚ
  usage_hours_per_day : ℚ
deriving DecidableEq, Repr

/-- The `electrical_devices` table together with the store's id supply. -/
structure DeviceTable where
  devices : List DeviceRow
  nextId : ℕ
deriving DecidableEq, Repr

/-- The rows `copyRoomDevices` prepares and inserts: each source device's
name, wattage, hours and `tenant_id` unchanged, `room_id` replaced by the
target room, and a fresh identity assigned by the store. -/
def copiedRows (startId : ℕ) (targetRoomId : String) :
    List DeviceRow → List DeviceRow
  | [] => []
  | d :: ds =>
      { id := startId
        tenant_id := d.tenant_id
        room_id := some targetRoomId
        device_name := d.device_name
        power_watts := d.power_watts
        usage_hours_per_day := d.usage_hours_per_day }
        :: copiedRows (startId + 1) targetRoomId ds

/-- Outcome of `copyRoomDevices`: reported success/error and the table after. -/
structure CopyOutcome where
  success : Bool
  error : Option String
  table : DeviceTable
deriving DecidableEq, Repr

/-- `copyRoomDevices` from src/actions/room-actions.ts (lines 175–224): fetch
the source room's devices, report "nothing to copy" when there are none,
otherwise insert one copy of each attached to the target room. The target
room is never looked up. -/
def copyRoomDevices (table : DeviceTable) (sourceRoomId targetRoomId : String) :
    CopyOutcome :=
  let sourceDevices := table.devices.filter (fun d => d.room_id == some sourceRoomId)
  if sourceDevices.isEmpty then
    { success := false
      error := some "Source room has no devices to copy"
      table := table }
  else
    { success := true
      error := none
      table := { devices := table.devices ++ copiedRows table.nextId targetRoomId sourceDevices
                 nextId := table.nextId + sourceDevices.length } }

/-- The 3-device source room "A" (tenant "T") plus 1-device target room "B"
from the spec's copy example. -/
def copyExampleTable : DeviceTable :=
  { devices :=
      [ ⟨0, "T", some "A", "TV", 100, 4⟩
      , ⟨1, "T", some "A", "Fridge", 150, 24⟩
      , ⟨2, "T", some "A", "Lamp", 10, 6⟩
      , ⟨3, "T", some "B", "Fan", 75, 8⟩ ]
    nextId := 4 }

/-- An empty device table. -/
def emptyDeviceTable : DeviceTable := { devices := [], nextId := 0 }

/-- A table whose single device belongs to tenant "A" and sits in room "ra";
room "rb" is thought of as a room of a different tenant "B". -/
def crossTenantTable : DeviceTable :=
  { devices := [⟨0, "A", some "ra", "TV", 100, 2⟩], nextId := 1 }

/-- A `rooms` row (the columns `getNextRoom` uses). -/
structure RoomRow where
  id : String
  tenant_id : String
  room_number : String
  display_order : Int
deriving DecidableEq, Repr

/-- `order('display_order', ascending).limit(1).single()` over a result set:
the first row carrying the minimal display order (a stable ascending sort
keeps the earliest such row first). -/
def firstByOrder : List RoomRow → Option RoomRow
  | [] => none
  | r :: rs =>
      match firstByOrder rs with
      | none => some r
      | some m => if r.display_order ≤ m.display_order then some r else some m

/-- What `getNextRoom` reports on success. -/
structure NextRoomResult where
  nextRoom : Option RoomRow
  isLastRoom : Bool
deriving DecidableEq, Repr

/-- `getNextRoom` from src/actions/room-actions.ts (lines 226–265): look up
the current room by id, then take the tenant's room with the smallest
`display_order` strictly greater than the current one; none means the current
room is the last (`nextRoom: null`, `isLastRoom: true`). A missing current
room is the reported "Current room not found" failure, modelled as `none`. -/
def getNextRoom (rooms : List RoomRow) (currentRoomId tenantId : String) :
    Option NextRoomResult :=
  match rooms.find? (fun r => r.id == currentRoomId) with
  | none => none
  | some cur =>
      let next := firstByOrder (rooms.filter (fun r =>
        r.tenant_id == tenantId && cur.display_order < r.display_order))
      some { nextRoom := next, isLastRoom := next.isNone }

/-- Three rooms of tenant "T" with display orders 1, 2, 3. -/
def demoRooms : List RoomRow :=
  [ ⟨"r1", "T", "101", 1⟩, ⟨"r2", "T", "102", 2⟩, ⟨"r3", "T", "103", 3⟩ ]

/-- Descending comparison by yearly kWh used by the report's sort. -/
def byYearlyDesc (a b : RoomConsumption) : Prop :=
  b.yearlyKwh ≤ a.yearlyKwh

instance : DecidableRel byYearlyDesc :=
  fun a b => inferInstanceAs (Decidable (b.yearlyKwh ≤ a.yearlyKwh))

instance : IsTotal RoomConsumption byYearlyDesc :=
  ⟨fun a b => le_total b.yearlyKwh a.yearlyKwh⟩

instance : IsTrans RoomConsumption byYearlyDesc :=
  ⟨fun _ _ _ hab hbc => le_trans hbc hab⟩

/-- `sortedRooms` of the report:
`[...roomConsumptions].sort((a, b) => b.yearlyKwh - a.yearlyKwh)`, a stable
sort placing higher yearly consumption first. -/
def sortedRooms (cs : List RoomConsumption) : List RoomConsumption :=
  List.insertionSort byYearlyDesc cs

/-- The report's displayed room list under a given price. -/
def sortedReport (rooms : List (List ElectricalDevice)) (price : ℚ) :
    List RoomConsumption :=
  sortedRooms (roomConsumptions rooms price)

/-- The `display_order` column of the descending-ordered, limit-1 query in
`createRoom`: the maximum display order among a tenant's rooms, when any. -/
def maxDisplayOrder : List Int → Option Int
  | [] => none
  | x :: xs => some (xs.foldl max x)

/-- `createRoom`'s next display order (src/actions/room-actions.ts, lines
34–44): `(existingRooms[0].display_order || 0) + 1` when rooms exist
(JavaScript `||` sends a zero order to 0), else 1. -/
def nextDisplayOrder (orders : List Int) : Int :=
  match maxDisplayOrder orders with
  | none => 1
  | some m => (if m = 0 then 0 else m) + 1

/-- `n` sequential `createRoom` calls against a tenant whose rooms currently
carry `orders`, each appending the freshly assigned display order. -/
def createRooms : ℕ → List Int → List Int
  | 0, orders => orders
  | n + 1, orders => createRooms n (orders ++ [nextDisplayOrder orders])

section FoldLemmas

variable {α : Type*} {M : Type*} [AddCommMonoid M]

/-- A left fold that only accumulates additions is the sum of the mapped list. -/
theorem foldl_add_eq (f : α → M) (l : List α) (init : M) :
    l.foldl (fun s a => s + f a) init = init + (l.map f).sum := by
  induction l generalizing init with
  | nil => simp
  | cons a t ih => simp only [List.foldl_cons, List.map_cons, List.sum_cons, ih, add_assoc]

/-- Division by a constant and scaling distribute over a list sum. -/
theorem sum_map_div_mul (l : List ℚ) (t k : ℚ) :
    (l.map fun y => y / t * k).sum = l.sum / t * k := by
  induction l with
  | nil => simp
  | cons a tl ih => simp only [List.map_cons, List.sum_cons, ih]; ring

end FoldLemmas

/-- A string has length at least 1 exactly when it is non-empty
(`z.string().min(1)` versus "non-empty"). -/
theorem one_le_string_length_iff (s : String) : 1 ≤ s.length ↔ s ≠ "" := by
  rw [Nat.one_le_iff_ne_zero]
  constructor
  · intro h hs; subst hs; simp at h
  · intro h hl
    apply h
    cases s with
    | mk data => cases data with
      | nil => rfl
      | cons a t => simp [String.length] at hl

/-- C1: room consumption is the device-level watt-hour sum scaled through
`/1000`, `×30`, `×365` and the price; `deviceCount` is the number of devices,
and a single device's daily kWh is `powerWatts × usageHoursPerDay / 1000`,
independent of the rate. -/
theorem calculateRoomConsumption_correct
    (devices : List ElectricalDevice) (price : ℚ) :
    (calculateRoomConsumption devices price).dailyKwh
        = (devices.map (fun d => d.power_watts * d.usage_hours_per_day)).sum / 1000
      ∧ (calculateRoomConsumption devices price).monthlyKwh
        = 30 * (calculateRoomConsumption devices price).dailyKwh
      ∧ (calculateRoomConsumption devices price).yearlyKwh
        = 365 * (calculateRoomConsumption devices price).dailyKwh
      ∧ (calculateRoomConsumption devices price).yearlyCost
        = (calculateRoomConsumption devices price).yearlyKwh * price
      ∧ (calculateRoomConsumption devices price).deviceCount = devices.length
      ∧ (∀ d : ElectricalDevice, ∀ rate : ℚ,
          (calculateRoomConsumption [d] rate).dailyKwh
            = d.power_watts * d.usage_hours_per_day / 1000)
      ∧ (∀ rate : ℚ, (calculateRoomConsumption devices rate).dailyKwh
            = (calculateRoomConsumption devices price).dailyKwh) := by
  have hm : (calculateRoomConsumption devices price).monthlyKwh
      = (calculateRoomConsumption devices price).dailyKwh * 30 := rfl
  have hy : (calculateRoomConsumption devices price).yearlyKwh
      = (calculateRoomConsumption devices price).dailyKwh * 365 := rfl
  refine ⟨?_, by rw [hm]; ring, by rw [hy]; ring, rfl, rfl, ?_, fun rate => rfl⟩
  · simp only [calculateRoomConsumption, dailyWattHours, foldl_add_eq, zero_add]
  · intro d rate
    simp [calculateRoomConsumption, dailyWattHours]

/-- C2 counterexample: a room with unrounded daily consumption exactly 10 kWh
is classified `good`, not `moderate` as the claim's boundary list states. -/
theorem healthStatus_ten_not_moderate :
    healthStatus 10 = HealthStatus.good
      ∧ healthStatus 10 ≠ HealthStatus.moderate := by
  constructor
  · norm_num [healthStatus]
  · norm_num [healthStatus]
    decide

/-- C2 (amended): health classification is a pure function of the room's
daily kWh with `> 20 ↔ high`, `10 < · ≤ 20 ↔ moderate`, `≤ 10 ↔ good`; the
boundary values map as `10 → good`, `10.01 → moderate`, `20 → moderate`,
`20.01 → high`, `0 → good`, and the dashboard computes it from the room's
unrounded daily kWh alone. -/
theorem healthStatus_classification :
    (∀ q : ℚ,
        (healthStatus q = .high ↔ 20 < q)
        ∧ (healthStatus q = .moderate ↔ 10 < q ∧ q ≤ 20)
        ∧ (healthStatus q = .good ↔ q ≤ 10))
      ∧ healthStatus 10 = .good
      ∧ healthStatus (1001/100) = .moderate
      ∧ healthStatus 20 = .moderate
      ∧ healthStatus (2001/100) = .high
      ∧ healthStatus 0 = .good
      ∧ (∀ devices : List ElectricalDevice,
          (roomMetrics devices).health = healthStatus (dailyWattHours devices / 1000)) := by
  refine ⟨?_, by norm_num [healthStatus], by norm_num [healthStatus],
    by norm_num [healthStatus], by norm_num [healthStatus],
    by norm_num [healthStatus], fun devices => rfl⟩
  intro q
  unfold healthStatus
  split
  · rename_i h
    refine ⟨by simp [h], ?_, ?_⟩ <;> constructor <;> intro h2
    · simp at h2
    · exact absurd h (not_lt.mpr h2.2)
    · simp at h2
    · exact absurd h (not_lt.mpr (h2.trans (by norm_num)))
  · rename_i h
    split
    · rename_i h10
      refine ⟨?_, ?_, ?_⟩ <;> constructor <;> intro h2
      · simp at h2
      · exact absurd h2 h
      · exact ⟨h10, not_lt.mp h⟩
      · rfl
      · simp at h2
      · exact absurd h10 (not_lt.mpr h2)
    · rename_i h10
      refine ⟨?_, ?_, ?_⟩ <;> constructor <;> intro h2
      · simp at h2
      · exact absurd h2 h
      · simp at h2
      · exact absurd h2.1 h10
      · exact not_lt.mp h10
      · rfl

/-- C3 counterexample: two rooms each holding a 1 W device used 5 h/day have
unrounded daily kWh `0.005` each (sum `0.01`), but `getTenantDashboard` rounds
each room to `0.01` before summing, so `stats.totalDailyKwh = 0.02`, not the
(rounded or unrounded) sum `0.01` of the unrounded room values. -/
theorem dashboard_rounds_before_aggregation :
    (tenantDashboardStats [[⟨"Lamp", 1, 5⟩], [⟨"Lamp", 1, 5⟩]]).totalDailyKwh = 2/100
      ∧ dailyWattHours [⟨"Lamp", 1, 5⟩] / 1000
          + dailyWattHours [⟨"Lamp", 1, 5⟩] / 1000 = 1/100
      ∧ round2 (dailyWattHours [⟨"Lamp", 1, 5⟩] / 1000
          + dailyWattHours [⟨"Lamp", 1, 5⟩] / 1000) = 1/100
      ∧ (2 : ℚ)/100 ≠ 1/100 := by
  refine ⟨?_, by norm_num [dailyWattHours], ?_, by norm_num⟩
  · norm_num [tenantDashboardStats, roomMetrics, dailyWattHours, round2]
  · norm_num [dailyWattHours, round2]

/-- C3 (amended): the tenant rollup sums the rooms' already-rounded `dailyKwh`
and `monthlyKwh` values (each room rounded to 2 decimals before aggregation),
rounds those sums again, and `estimatedMonthlyCost` is the rounded product of
the unrounded sum of rounded monthly values with 0.15. -/
theorem tenantDashboardStats_sums_rounded (rooms : List (List ElectricalDevice)) :
    (tenantDashboardStats rooms).totalDailyKwh
        = round2 ((rooms.map (fun r => (roomMetrics r).dailyKwh)).sum)
      ∧ (tenantDashboardStats rooms).totalMonthlyKwh
        = round2 ((rooms.map (fun r => (roomMetrics r).monthlyKwh)).sum)
      ∧ (tenantDashboardStats rooms).estimatedMonthlyCost
        = round2 ((rooms.map (fun r => (roomMetrics r).monthlyKwh)).sum * (15/100))
      ∧ (tenantDashboardStats rooms).totalRooms = rooms.length
      ∧ (tenantDashboardStats rooms).totalDevices
        = (rooms.map (fun r => (roomMetrics r).deviceCount)).sum
      ∧ ∀ r : List ElectricalDevice,
          (roomMetrics r).dailyKwh = round2 (dailyWattHours r / 1000) := by
  refine ⟨?_, ?_, ?_, by simp [tenantDashboardStats], ?_, fun r => rfl⟩ <;>
    simp [tenantDashboardStats, foldl_add_eq, List.map_map, Function.comp_def]

/-- C4: in the report, when the accumulated yearly total is positive each
room's `percentageOfTotal` is `yearlyKwh / total × 100` and the percentages
sum to exactly 100; when the total is 0 (or negative) every room's percentage
is 0 and so is their sum — divide-by-zero is defined as zero, not an error. -/
theorem report_percentages (rooms : List (List ElectricalDevice)) (price : ℚ) :
    ((roomConsumptions rooms price).map
        (fun c => percentageOfTotal c.yearlyKwh (totalsYearlyKwh rooms price))).sum
      = (if 0 < totalsYearlyKwh rooms price then 100 else 0)
    ∧ ∀ i : Fin (roomConsumptions rooms price).length,
        percentageOfTotal ((roomConsumptions rooms price).get i).yearlyKwh
            (totalsYearlyKwh rooms price)
          = if 0 < totalsYearlyKwh rooms price
            then ((roomConsumptions rooms price).get i).yearlyKwh
                  / totalsYearlyKwh rooms price * 100
            else 0 := by
  have htot : totalsYearlyKwh rooms price
      = ((roomConsumptions rooms price).map (fun c => c.yearlyKwh)).sum := by
    simp [totalsYearlyKwh, foldl_add_eq]
  constructor
  · by_cases h : 0 < totalsYearlyKwh rooms price
    · have hne : totalsYearlyKwh rooms price ≠ 0 := ne_of_gt h
      simp only [percentageOfTotal, if_pos h, gt_iff_lt]
      rw [show ((roomConsumptions rooms price).map
            (fun c => c.yearlyKwh / totalsYearlyKwh rooms price * 100))
          = (((roomConsumptions rooms price).map (fun c => c.yearlyKwh)).map
            (fun y => y / totalsYearlyKwh rooms price * 100)) by
        simp [List.map_map, Function.comp]]
      rw [sum_map_div_mul, ← htot, div_self hne]
      norm_num
    · simp only [percentageOfTotal, gt_iff_lt, if_neg h]
      simp
  · intro i
    rfl

/-- C5 counterexample: the input `{name: "Lamp", powerWatts: 0,
usageHoursPerDay: 5}` meets every condition of the claim (non-empty name,
`powerWatts ≥ 0`, hours in [0, 24]) yet the device-form schema of
device-actions.ts rejects it, because `z.number().positive()` demands
strictly positive wattage. -/
theorem deviceSchema_rejects_zero_watts :
    deviceSchemaValid ⟨"Lamp", 0, 5⟩ = false
      ∧ ("Lamp" : String) ≠ ""
      ∧ (0 : ℚ) ≤ 0 ∧ (0 : ℚ) ≤ 5 ∧ (5 : ℚ) ≤ 24 := by
  refine ⟨?_, by decide, by norm_num, by norm_num, by norm_num⟩
  simp [deviceSchemaValid]

/-- C5 (amended): the device-form schema (device-actions.ts, used by the
device input form's `saveDevices`) accepts exactly the inputs with a
non-empty name, strictly positive `powerWatts`, and `usageHoursPerDay`
in [0, 24] — so `powerWatts = 0` is rejected there, while the CRUD schema of
devices.ts accepts any `powerWatts ≥ 0` (given a uuid tenant id and a name of
length 1–255), and in particular accepts `powerWatts = 0`. -/
theorem deviceSchemaValid_iff (d : DeviceInput) :
    (deviceSchemaValid d = true
      ↔ d.name ≠ "" ∧ 0 < d.powerWatts
          ∧ 0 ≤ d.usageHoursPerDay ∧ d.usageHoursPerDay ≤ 24)
      ∧ (∀ c : CrudDeviceInput, crudDeviceSchemaValid c = true
          ↔ c.tenantIdIsUuid = true ∧ c.deviceName ≠ "" ∧ c.deviceName.length ≤ 255
              ∧ 0 ≤ c.powerWatts ∧ 0 ≤ c.usageHoursPerDay ∧ c.usageHoursPerDay ≤ 24)
      ∧ crudDeviceSchemaValid ⟨true, "Lamp", 0, 5⟩ = true := by
  refine ⟨?_, ?_, by decide⟩
  · simp [deviceSchemaValid, one_le_string_length_iff, and_assoc]
  · intro c
    simp [crudDeviceSchemaValid, one_le_string_length_iff, and_assoc]

theorem copiedRows_length (n : ℕ) (tgt : String) (l : List DeviceRow) :
    (copiedRows n tgt l).length = l.length := by
  induction l generalizing n with
  | nil => rfl
  | cons d ds ih => simp [copiedRows, ih]

theorem copiedRows_map_attrs (n : ℕ) (tgt : String) (l : List DeviceRow) :
    (copiedRows n tgt l).map
        (fun d => (d.device_name, d.power_watts, d.usage_hours_per_day))
      = l.map (fun d => (d.device_name, d.power_watts, d.usage_hours_per_day)) := by
  induction l generalizing n with
  | nil => rfl
  | cons d ds ih => simp [copiedRows, ih]

theorem copiedRows_map_tenant (n : ℕ) (tgt : String) (l : List DeviceRow) :
    (copiedRows n tgt l).map (fun d => d.tenant_id)
      = l.map (fun d => d.tenant_id) := by
  induction l generalizing n with
  | nil => rfl
  | cons d ds ih => simp [copiedRows, ih]

theorem copiedRows_room_id (n : ℕ) (tgt : String) (l : List DeviceRow) :
    ∀ c ∈ copiedRows n tgt l, c.room_id = some tgt := by
  induction l generalizing n with
  | nil => intro c hc; simp [copiedRows] at hc
  | cons d ds ih =>
      intro c hc
      rcases List.mem_cons.mp hc with h | h
      · subst h; rfl
      · exact ih (n + 1) c h

theorem copiedRows_id_ge (n : ℕ) (tgt : String) (l : List DeviceRow) :
    ∀ c ∈ copiedRows n tgt l, n ≤ c.id := by
  induction l generalizing n with
  | nil => intro c hc; simp [copiedRows] at hc
  | cons d ds ih =>
      intro c hc
      rcases List.mem_cons.mp hc with h | h
      · subst h; exact le_refl n
      · exact (Nat.le_succ n).trans (ih (n + 1) c h)

/-- C6: copying a source room into a distinct target room of a well-formed
table reports "nothing to copy" and leaves the table untouched when the
source room is empty; otherwise it succeeds, appends one copy of every source
device attached to the target (same name, wattage, hours; fresh identities
distinct from every existing row) without touching the source room's rows and
without deduplicating: the target's device count grows by exactly the number
of source devices. -/
theorem copyRoomDevices_correct (table : DeviceTable) (src tgt : String)
    (hwf : ∀ d ∈ table.devices, d.id < table.nextId) (hne : src ≠ tgt) :
    (table.devices.filter (fun d => d.room_id == some src) = [] →
        (copyRoomDevices table src tgt).success = false
        ∧ (copyRoomDevices table src tgt).error
            = some "Source room has no devices to copy"
        ∧ (copyRoomDevices table src tgt).table = table)
      ∧ (table.devices.filter (fun d => d.room_id == some src) ≠ [] →
        (copyRoomDevices table src tgt).success = true
        ∧ (copyRoomDevices table src tgt).table.devices
            = table.devices
              ++ copiedRows table.nextId tgt
                  (table.devices.filter (fun d => d.room_id == some src))
        ∧ (copyRoomDevices table src tgt).table.devices.filter
              (fun d => d.room_id == some src)
            = table.devices.filter (fun d => d.room_id == some src)
        ∧ (copyRoomDevices table src tgt).table.devices.filter
              (fun d => d.room_id == some tgt)
            = table.devices.filter (fun d => d.room_id == some tgt)
              ++ copiedRows table.nextId tgt
                  (table.devices.filter (fun d => d.room_id == some src))
        ∧ ((copyRoomDevices table src tgt).table.devices.filter
              (fun d => d.room_id == some tgt)).length
            = (table.devices.filter (fun d => d.room_id == some tgt)).length
              + (table.devices.filter (fun d => d.room_id == some src)).length
        ∧ (copiedRows table.nextId tgt
              (table.devices.filter (fun d => d.room_id == some src))).map
              (fun d => (d.device_name, d.power_watts, d.usage_hours_per_day))
            = (table.devices.filter (fun d => d.room_id == some src)).map
              (fun d => (d.device_name, d.power_watts, d.usage_hours_per_day))
        ∧ ∀ c ∈ copiedRows table.nextId tgt
              (table.devices.filter (fun d => d.room_id == some src)),
            ∀ e ∈ table.devices, c.id ≠ e.id) := by
  constructor
  · intro h
    have hempty : (table.devices.filter
        (fun d => d.room_id == some src)).isEmpty = true := by
      simp [h]
    refine ⟨?_, ?_, ?_⟩ <;> simp [copyRoomDevices, hempty]
  · intro h
    have hempty : (table.devices.filter
        (fun d => d.room_id == some src)).isEmpty = false := by
      simpa [List.isEmpty_iff] using h
    have hfsrc : (copiedRows table.nextId tgt
          (table.devices.filter (fun d => d.room_id == some src))).filter
          (fun d => d.room_id == some src) = [] := by
      apply List.filter_eq_nil_iff.mpr
      intro c hc
      have := copiedRows_room_id table.nextId tgt _ c hc
      simp [this, Ne.symm hne]
    have hftgt : (copiedRows table.nextId tgt
          (table.devices.filter (fun d => d.room_id == some src))).filter
          (fun d => d.room_id == some tgt)
        = copiedRows table.nextId tgt
            (table.devices.filter (fun d => d.room_id == some src)) := by
      apply List.filter_eq_self.mpr
      intro c hc
      have := copiedRows_room_id table.nextId tgt _ c hc
      simp [this]
    refine ⟨by simp [copyRoomDevices, hempty], by simp [copyRoomDevices, hempty],
      ?_, ?_, ?_, copiedRows_map_attrs _ _ _, ?_⟩
    · simp [copyRoomDevices, hempty, List.filter_append, hfsrc]
    · simp [copyRoomDevices, hempty, List.filter_append, hftgt]
    · simp [copyRoomDevices, hempty, List.filter_append, hftgt, copiedRows_length]
    · intro c hc e he
      have hce := copiedRows_id_ge table.nextId tgt _ c hc
      have hee := hwf e he
      omega

/-- Witness for C6: copying room "A" (3 devices) into room "B" (1 device)
succeeds and leaves room "B" with 4 devices and room "A" unchanged, while
copying out of an empty room fails with the reported message. -/
theorem copyRoomDevices_correct_witness :
    (copyRoomDevices copyExampleTable "A" "B").success = true
      ∧ ((copyRoomDevices copyExampleTable "A" "B").table.devices.filter
            (fun d => d.room_id == some "B")).length = 4
      ∧ (copyRoomDevices copyExampleTable "A" "B").table.devices.filter
            (fun d => d.room_id == some "A")
          = copyExampleTable.devices.filter (fun d => d.room_id == some "A")
      ∧ (copyRoomDevices emptyDeviceTable "A" "B").success = false
      ∧ (copyRoomDevices emptyDeviceTable "A" "B").table = emptyDeviceTable := by
  have h1 := copyRoomDevices_correct copyExampleTable "A" "B"
    (by decide) (by decide)
  have h2 := copyRoomDevices_correct emptyDeviceTable "A" "B"
    (by intro d hd; simp [emptyDeviceTable] at hd) (by decide)
  obtain ⟨-, hfull⟩ := h1
  obtain ⟨hsucc, -, hsrc, -, hlen, -, -⟩ := hfull (by decide)
  obtain ⟨hempty, -⟩ := h2
  obtain ⟨hfail, -, hsame⟩ := hempty (by decide)
  refine ⟨hsucc, ?_, hsrc, hfail, hsame⟩
  rw [hlen]
  decide

/-- C10: `copyRoomDevices` takes no rooms data at all — it never looks up the
target room. For every target room id, whenever the copy runs (non-empty
source) it succeeds and the inserted rows (the suffix appended to the table)
carry each source device's `tenant_id` unchanged while pointing at the target
room, so nothing ties the inserted rows' tenant to the target room's
tenant. -/
theorem copyRoomDevices_no_tenant_check (table : DeviceTable) (src tgt : String)
    (hne : table.devices.filter (fun d => d.room_id == some src) ≠ []) :
    (copyRoomDevices table src tgt).success = true
      ∧ ((copyRoomDevices table src tgt).table.devices.drop
            table.devices.length).map (fun d => d.tenant_id)
          = (table.devices.filter (fun d => d.room_id == some src)).map
            (fun d => d.tenant_id)
      ∧ ∀ c ∈ (copyRoomDevices table src tgt).table.devices.drop
            table.devices.length,
          c.room_id = some tgt := by
  have hempty : (table.devices.filter
      (fun d => d.room_id == some src)).isEmpty = false := by
    simpa [List.isEmpty_iff] using hne
  refine ⟨by simp [copyRoomDevices, hempty], ?_, ?_⟩
  · simp only [copyRoomDevices, hempty, Bool.false_eq_true, if_false,
      List.drop_left]
    exact copiedRows_map_tenant _ _ _
  · simp only [copyRoomDevices, hempty, Bool.false_eq_true, if_false,
      List.drop_left]
    exact copiedRows_room_id _ _ _

/-- Witness for C10: copying tenant "A"'s room "ra" into the foreign room
"rb" succeeds and inserts a row that still carries tenant "A", not the target
room's tenant "B". -/
theorem copyRoomDevices_no_tenant_check_witness :
    (copyRoomDevices crossTenantTable "ra" "rb").success = true
      ∧ ((copyRoomDevices crossTenantTable "ra" "rb").table.devices.drop
            crossTenantTable.devices.length).map (fun d => d.tenant_id) = ["A"]
      ∧ ("A" : String) ≠ "B" := by
  obtain ⟨hs, hm, -⟩ :=
    copyRoomDevices_no_tenant_check crossTenantTable "ra" "rb" (by decide)
  refine ⟨hs, ?_, by decide⟩
  rw [hm]
  decide

theorem firstByOrder_eq_none (l : List RoomRow) :
    firstByOrder l = none ↔ l = [] := by
  cases l with
  | nil => simp [firstByOrder]
  | cons r rs =>
      constructor
      · intro h
        rw [firstByOrder] at h
        split at h
        · exact absurd h (by simp)
        · split at h <;> exact absurd h (by simp)
      · intro h; simp at h

theorem firstByOrder_mem :
    ∀ (l : List RoomRow) (m : RoomRow), firstByOrder l = some m → m ∈ l := by
  intro l
  induction l with
  | nil => intro m h; simp [firstByOrder] at h
  | cons r rs ih =>
      intro m h
      rw [firstByOrder] at h
      split at h
      · injection h with h'
        exact h' ▸ List.mem_cons_self r rs
      · rename_i m0 heq
        split at h
        · injection h with h'
          exact h' ▸ List.mem_cons_self r rs
        · injection h with h'
          exact List.mem_cons_of_mem r (ih m (h' ▸ heq))

theorem firstByOrder_min :
    ∀ (l : List RoomRow) (m : RoomRow), firstByOrder l = some m →
      ∀ r ∈ l, m.display_order ≤ r.display_order := by
  intro l
  induction l with
  | nil => intro m h; simp [firstByOrder] at h
  | cons r rs ih =>
      intro m h x hx
      rw [firstByOrder] at h
      split at h
      · rename_i heq
        have hnil : rs = [] := (firstByOrder_eq_none rs).mp heq
        subst hnil
        injection h with h'
        subst h'
        rcases List.mem_cons.mp hx with h1 | h1
        · subst h1; exact le_refl _
        · simp at h1
      · rename_i m0 heq
        split at h
        · rename_i hle
          injection h with h'
          subst h'
          rcases List.mem_cons.mp hx with h1 | h1
          · subst h1; exact le_refl _
          · exact hle.trans (ih m0 heq x h1)
        · rename_i hle
          injection h with h'
          subst h'
          rcases List.mem_cons.mp hx with h1 | h1
          · subst h1; exact le_of_not_le hle
          · exact ih m0 heq x h1

/-- C7: when the current room is found, `getNextRoom` succeeds; the reported
room (if any) belongs to the tenant, has a `display_order` strictly greater
than the current room's, and carries the smallest such order among the
tenant's rooms; when no tenant room lies strictly beyond the current order,
it reports the terminal last-room state (`nextRoom = none`,
`isLastRoom = true`) instead of another room. -/
theorem getNextRoom_correct (rooms : List RoomRow) (cid tid : String)
    (cur : RoomRow) (hfind : rooms.find? (fun r => r.id == cid) = some cur) :
    ∃ res : NextRoomResult, getNextRoom rooms cid tid = some res
      ∧ res.isLastRoom = res.nextRoom.isNone
      ∧ (res.nextRoom = none →
          ∀ r ∈ rooms, r.tenant_id = tid → r.display_order ≤ cur.display_order)
      ∧ (∀ m : RoomRow, res.nextRoom = some m →
          m ∈ rooms ∧ m.tenant_id = tid ∧ cur.display_order < m.display_order
          ∧ ∀ r ∈ rooms, r.tenant_id = tid →
              cur.display_order < r.display_order →
              m.display_order ≤ r.display_order) := by
  refine ⟨_, by rw [getNextRoom, hfind], rfl, ?_, ?_⟩
  · intro hnone r hr htid
    by_contra hlt
    push_neg at hlt
    have hmem : r ∈ rooms.filter (fun r =>
        r.tenant_id == tid && cur.display_order < r.display_order) := by
      apply List.mem_filter.mpr
      refine ⟨hr, ?_⟩
      simp [htid, hlt]
    have hnil := (firstByOrder_eq_none _).mp hnone
    rw [hnil] at hmem
    simp at hmem
  · intro m hm
    have hmem := firstByOrder_mem _ m hm
    have hprop := List.mem_filter.mp hmem
    have hp : m.tenant_id = tid ∧ cur.display_order < m.display_order := by
      have h2 := hprop.2
      simp only [Bool.and_eq_true, beq_iff_eq, decide_eq_true_eq] at h2
      exact h2
    refine ⟨hprop.1, hp.1, hp.2, ?_⟩
    intro r hr htid hord
    apply firstByOrder_min _ m hm
    apply List.mem_filter.mpr
    refine ⟨hr, ?_⟩
    simp [htid, hord]

/-- Witness for C7: from room "r1" the next room is "r2"; from the last room
"r3" the lookup reports the terminal state and indeed no tenant room lies
beyond order 3. -/
theorem getNextRoom_correct_witness :
    getNextRoom demoRooms "r1" "T" = some ⟨some ⟨"r2", "T", "102", 2⟩, false⟩
      ∧ getNextRoom demoRooms "r3" "T" = some ⟨none, true⟩
      ∧ (∀ r ∈ demoRooms, r.tenant_id = "T" → r.display_order ≤ 3) := by
  obtain ⟨res, hres, -, hnone, -⟩ :=
    getNextRoom_correct demoRooms "r3" "T" ⟨"r3", "T", "103", 3⟩ (by decide)
  have hcomp : getNextRoom demoRooms "r3" "T" = some ⟨none, true⟩ := by decide
  rw [hcomp] at hres
  injection hres with h'
  refine ⟨by decide, hcomp, ?_⟩
  intro r hr htid
  exact hnone (h' ▸ rfl) r hr htid

/-- C8: the displayed room list of the report is the room consumptions
rearranged (a permutation) so that every room's yearly kWh is at least that
of every later room; in particular each adjacent pair is ordered with the
earlier yearly kWh ≥ the later one. -/
theorem sortedReport_descending (rooms : List (List ElectricalDevice))
    (price : ℚ) :
    List.Sorted byYearlyDesc (sortedReport rooms price)
      ∧ List.Chain' (fun a b => b.yearlyKwh ≤ a.yearlyKwh)
          (sortedReport rooms price)
      ∧ List.Perm (sortedReport rooms price) (roomConsumptions rooms price) := by
  have hs := List.sorted_insertionSort byYearlyDesc (roomConsumptions rooms price)
  exact ⟨hs, List.Pairwise.chain' hs, List.perm_insertionSort _ _⟩

theorem le_foldl_max (l : List Int) (a : Int) :
    a ≤ l.foldl max a ∧ ∀ x ∈ l, x ≤ l.foldl max a := by
  induction l generalizing a with
  | nil => simp
  | cons y ys ih =>
      simp only [List.foldl_cons]
      obtain ⟨h1, h2⟩ := ih (max a y)
      refine ⟨le_trans (le_max_left a y) h1, ?_⟩
      intro x hx
      rcases List.mem_cons.mp hx with h | h
      · rw [h]; exact le_trans (le_max_right a y) h1
      · exact h2 x h

theorem nextDisplayOrder_gt (orders : List Int) :
    ∀ x ∈ orders, x < nextDisplayOrder orders := by
  intro x hx
  cases orders with
  | nil => simp at hx
  | cons a t =>
      have hle : x ≤ t.foldl max a := by
        rcases List.mem_cons.mp hx with h | h
        · subst h; exact (le_foldl_max t x).1
        · exact (le_foldl_max t a).2 x h
      have hnext : nextDisplayOrder (a :: t)
          = (if t.foldl max a = 0 then 0 else t.foldl max a) + 1 := rfl
      rw [hnext]
      by_cases h0 : t.foldl max a = 0
      · rw [h0] at hle; simp [h0]; omega
      · simp only [if_neg h0]; omega

theorem createRooms_pairwise (n : ℕ) :
    ∀ orders : List Int, orders.Pairwise (· < ·) →
      (createRooms n orders).Pairwise (· < ·) := by
  induction n with
  | zero => intro orders h; exact h
  | succ k ih =>
      intro orders h
      apply ih
      rw [List.pairwise_append]
      refine ⟨h, by simp, ?_⟩
      intro a ha b hb
      simp only [List.mem_singleton] at hb
      subst hb
      exact nextDisplayOrder_gt orders a ha

/-- C9: `createRoom` assigns display order 1 to a tenant's first room and
`max + 1` when rooms exist; the assigned order strictly exceeds every
existing order, so any run of sequential creations keeps the tenant's
display orders strictly increasing in creation order — in particular
pairwise distinct — and from an empty tenant they stay so. -/
theorem createRoom_displayOrder (orders : List Int) (n : ℕ) (m : Int) :
    nextDisplayOrder [] = 1
      ∧ (maxDisplayOrder orders = some m → nextDisplayOrder orders = m + 1)
      ∧ (∀ x ∈ orders, x < nextDisplayOrder orders)
      ∧ (orders.Pairwise (· < ·) → (createRooms n orders).Pairwise (· < ·))
      ∧ (createRooms n []).Pairwise (· < ·) := by
  refine ⟨rfl, ?_, nextDisplayOrder_gt orders, createRooms_pairwise n orders,
    createRooms_pairwise n [] (by simp)⟩
  intro hmax
  simp only [nextDisplayOrder, hmax]
  split <;> omega

/-- Witness for C9: with existing orders [1, 2] the next room gets order 3,
and three sequential creations (from [1, 2] and from an empty tenant) leave
the orders strictly increasing. -/
theorem createRoom_displayOrder_witness :
    nextDisplayOrder [1, 2] = 3
      ∧ (createRooms 3 [1, 2]).Pairwise (· < ·)
      ∧ (createRooms 3 []).Pairwise (· < ·) := by
  obtain ⟨-, h2, -, h4, h5⟩ := createRoom_displayOrder [1, 2] 3 2
  refine ⟨?_, h4 (by decide), h5⟩
  rw [h2 (by decide)]
  decide
